import Mathlib

/-!
Shallow embedding of a two-script web scraper (`collect_ais.py`, `process_ais.py`).

Modelling conventions:
* A parsed HTML page (a BeautifulSoup object) is modelled by the structure `Soup`,
  which records exactly the DOM facts the two scripts query: the `<input>` elements
  in document order, the results table (first-`<td>` text of each row), the detail
  link, the fixed-position summary view rows (text of the first `<span>` in each
  row, `none` when the row holds no span), the demographics rows (cell texts),
  the `<div>` elements with their following-sibling span texts, the incarceration
  summary tables and the indexed nested sentence tables.  Cell and span texts are
  stored already stripped, matching the scripts' pervasive `get_text(strip=True)`.
* A Python `dict[str, str]` is the partial map `Dict`; insertion overwrites.
* A raised Python exception is a `PyErr` (class name and message); fallible code
  returns `Except PyErr _`.  BeautifulSoup `Tag` objects are always truthy, so
  `if not tag:` tests are modelled as `Option.isNone` tests.
* Network effects (`requests.Session.get/post` followed by `raise_for_status`)
  are parameters of type `Except PyErr Soup` (or `Dict → Except PyErr Soup` for a
  POST, taking the payload that the embedded code builds).
-/

namespace AlabamaScraper

/-- A Python `dict[str, str]`, modelled as a partial map from keys to values. -/
def Dict := String → Option String

/-- The empty dict `{}`. -/
def Dict.empty : Dict := fun _ => none

/-- Assignment `d[k] = v` (overwrites an existing binding). -/
def Dict.insert (d : Dict) (k v : String) : Dict :=
  fun x => if x = k then some v else d x

/-- `d.update({...})` for a literal list of key/value pairs; later pairs win. -/
def Dict.updateWith (d : Dict) (kvs : List (String × String)) : Dict :=
  kvs.foldl (fun a p => a.insert p.1 p.2) d

/-- A dict built from a list of pairs (a dict literal / comprehension). -/
def Dict.ofPairs (kvs : List (String × String)) : Dict :=
  Dict.empty.updateWith kvs

/-- `{**base, **over}`, or equivalently `d = base.copy(); d.update(over)`. -/
def Dict.override (base over : Dict) : Dict :=
  fun x => match over x with | some v => some v | none => base x

/-- A raised Python exception: class name and message. -/
structure PyErr where
  kind : String
  msg : String
deriving DecidableEq

/-- The `ValueError` raised by `process_ais.parse_hidden_inputs`. -/
def valueErrorMissingInput : PyErr :=
  ⟨"ValueError", "A required ASP.NET hidden input was not found on the page."⟩

/-- The `TypeError` from subscripting the `None` returned by a failed `find`. -/
def typeErrorNoneSub : PyErr :=
  ⟨"TypeError", "NoneType object is not subscriptable"⟩

/-- The `KeyError` from `tag[\x27value\x27]` when the attribute is missing. -/
def keyErrorValue : PyErr := ⟨"KeyError", "value"⟩

/-- The `AttributeError` from calling a method on the `None` of a failed `find`. -/
def attributeErrorNoneTr : PyErr :=
  ⟨"AttributeError", "NoneType object has no attribute find_all"⟩

/-- The `IndexError` from an out-of-range list subscript. -/
def indexErrorRange : PyErr := ⟨"IndexError", "list index out of range"⟩

/-- An `<input>` element: `name` / `value` attributes, whether its `type` is
`hidden`, and the raw value of its `disabled` attribute (if present). -/
structure InputTag where
  name : Option String
  value : Option String
  hidden : Bool
  disabledAttr : Option String
deriving DecidableEq

/-- An `<a>` element matched by the detail-link selector. -/
structure LinkTag where
  href : Option String
deriving DecidableEq

/-- The DOM facts of one parsed page that the two scripts query. -/
structure Soup where
  inputs : List InputTag
  resultsTable : Option (List (Option String))
  detailLink : Option LinkTag
  summaryView : Option (List (Option String))
  demographicsTable : Option (List (List String))
  divs : List (String × List String)
  sentenceSummaryTables : List (List (List String))
  nestedTables : List (Nat × List (List String))

/-- A page with no recognised content at all. -/
def emptySoup : Soup := ⟨[], none, none, none, none, [], [], []⟩

/-- `soup.find("input", {"name": n})`: the first input named `n`. -/
def findInputNamed (inputs : List InputTag) (n : String) : Option InputTag :=
  inputs.find? (fun i => i.name == some n)

/-- `tag["value"]`: raises `KeyError` when the attribute is missing. -/
def attrValue (t : InputTag) : Except PyErr String :=
  match t.value with
  | some v => .ok v
  | none => .error keyErrorValue

/-- `process_ais.parse_hidden_inputs`: checks the three required hidden inputs
are present, raising `ValueError` otherwise, then reads their `value` attributes. -/
def parseHiddenInputsP (soup : Soup) : Except PyErr Dict :=
  match findInputNamed soup.inputs "__VIEWSTATE",
        findInputNamed soup.inputs "__VIEWSTATEGENERATOR",
        findInputNamed soup.inputs "__EVENTVALIDATION" with
  | some t1, some t2, some t3 => do
      let v1 ← attrValue t1
      let v2 ← attrValue t2
      let v3 ← attrValue t3
      .ok (Dict.ofPairs
        [("__VIEWSTATE", v1), ("__VIEWSTATEGENERATOR", v2), ("__EVENTVALIDATION", v3)])
  | _, _, _ => .error valueErrorMissingInput

/-- `find(...)["value"]` where the `find` may have returned `None` (a `TypeError`). -/
def subscriptValue : Option InputTag → Except PyErr String
  | none => .error typeErrorNoneSub
  | some t => attrValue t

/-- `collect_ais.parse_hidden_inputs`: subscripts the three `find` results
directly, so a missing input raises `TypeError` while building the dict literal. -/
def parseHiddenInputsC (soup : Soup) : Except PyErr Dict := do
  let v1 ← subscriptValue (findInputNamed soup.inputs "__VIEWSTATE")
  let v2 ← subscriptValue (findInputNamed soup.inputs "__VIEWSTATEGENERATOR")
  let v3 ← subscriptValue (findInputNamed soup.inputs "__EVENTVALIDATION")
  .ok (Dict.ofPairs
    [("__VIEWSTATE", v1), ("__VIEWSTATEGENERATOR", v2), ("__EVENTVALIDATION", v3)])

/-! ### Payload construction (both pipelines) -/

/-- `collect_ais._extract_form_payload`: every `type="hidden"` input with a
truthy `name` contributes `name → value` (missing `value` defaults to `""`). -/
def extractFormPayload (soup : Soup) : Dict :=
  (soup.inputs.filter (·.hidden)).foldl
    (fun p inp =>
      match inp.name with
      | some n => if n = "" then p else p.insert n (inp.value.getD "")
      | none => p)
    Dict.empty

/-- The payload POSTed by `collect_ais._perform_initial_search`. -/
def performInitialSearchPayload (soup : Soup) (term : String) : Dict :=
  (extractFormPayload soup).updateWith
    [("ctl00$MainContent$txtLName", term), ("ctl00$MainContent$btnSearch", "Search")]

/-- The payload POSTed by the pagination step of `collect_ais._paginate_and_scrape`. -/
def paginatePostPayload (soup : Soup) (target : String) : Dict :=
  (extractFormPayload soup).insert "__EVENTTARGET" target

/-- The payload POSTed by `process_ais._post_ais_search`. -/
def postAisSearchPayload (soup : Soup) (ais : String) : Except PyErr Dict :=
  (parseHiddenInputsP soup).map (fun p =>
    p.updateWith [("ctl00$MainContent$txtAIS", ais), ("ctl00$MainContent$btnSearch", "Search")])

/-- The payload POSTed by `process_ais._navigate_to_details_page`. -/
def navigatePostPayload (soup : Soup) (target : String) : Except PyErr Dict :=
  (parseHiddenInputsP soup).map (fun p => p.insert "__EVENTTARGET" target)

/-! ### Detail page parsing (`process_ais`) -/

/-- Whether `pat` occurs at the start of `s` (over character lists). -/
def startsWithChars : List Char → List Char → Bool
  | [], _ => true
  | _ :: _, [] => false
  | p :: ps, s :: ss => p == s && startsWithChars ps ss

/-- Whether `pat` occurs anywhere in `s` (over character lists). -/
def hasSubChars (pat : List Char) : List Char → Bool
  | [] => startsWithChars pat []
  | s :: ss => startsWithChars pat (s :: ss) || hasSubChars pat ss

/-- Python's `pat in s` substring test. -/
def containsSubstr (s pat : String) : Bool := hasSubChars pat.data s.data

/-- Python's `s.replace(":", "")`: drop every colon. -/
def stripColons : List Char → List Char
  | [] => []
  | c :: cs => if c == Char.ofNat 58 then stripColons cs else c :: stripColons cs

/-- Python's `s.replace(", ", "_")`: left-to-right, non-overlapping. -/
def replaceCommaSpace : List Char → List Char
  | [] => []
  | [c] => [c]
  | c1 :: c2 :: cs =>
    if c1 == Char.ofNat 44 && c2 == Char.ofNat 32 then
      Char.ofNat 95 :: replaceCommaSpace cs
    else c1 :: replaceCommaSpace (c2 :: cs)

/-- One fixed-position row of the summary details view: insert `key` when the
row exists and holds a span (`if len(rows) > n and (tag := rows[n].find("span"))`). -/
def rowSpanStep (d : Dict) (key : String) (row? : Option (Option String)) : Dict :=
  match row? with
  | some (some t) => d.insert key t
  | _ => d

/-- Row 1 of the summary details view: the identifier, falling back to the
requested one when the row is missing or holds no span. -/
def aisRowStep (d : Dict) (fallbackAis : String) (row? : Option (Option String)) : Dict :=
  match row? with
  | some (some t) => d.insert "AIS #" t
  | _ => d.insert "AIS #" fallbackAis

/-- `process_ais._parse_inmate_summary`: fixed row positions in the summary
details view. -/
def parseInmateSummary (soup : Soup) (fallbackAis : String) : Dict :=
  match soup.summaryView with
  | none => Dict.empty.insert "AIS #" fallbackAis
  | some rows =>
    rowSpanStep
      (aisRowStep (rowSpanStep Dict.empty "Inmate Name" rows[0]?) fallbackAis rows[1]?)
      "Institution" rows[3]?

/-- `process_ais._parse_demographics`: every two-cell row becomes a pair, with
colons stripped from the key and empty keys skipped. -/
def parseDemographics (soup : Soup) : Dict :=
  match soup.demographicsTable with
  | none => Dict.empty
  | some rows =>
    rows.foldl
      (fun d cells =>
        match cells with
        | [c0, c1] =>
          let key := String.mk (stripColons c0.data)
          if key = "" then d else d.insert key c1
        | _ => d)
      Dict.empty

/-- The two labelled free-text sections parsed by `process_ais`. -/
def sectionsToParse : List String := ["Aliases", "Scars, Marks and Tattoos"]

/-- The `find` of a `<div>` whose text contains `item ++ ":"`, yielding its
following-sibling span texts. -/
def findSectionSpans (divs : List (String × List String)) (item : String) :
    Option (List String) :=
  (divs.find? (fun d => containsSubstr d.1 (item ++ ":"))).map (·.2)

/-- One iteration of `_parse_text_sections`: record the joined sibling span
texts under the section key, or the empty string when the section is absent,
empty, or starts with the `No known ...` placeholder. -/
def textSectionStep (divs : List (String × List String)) (d : Dict) (item : String) : Dict :=
  let key := String.mk (replaceCommaSpace item.data)
  match findSectionSpans divs item with
  | some items =>
    match items with
    | [] => d.insert key ""
    | first :: _ =>
      if containsSubstr first ("No known " ++ item) then d.insert key ""
      else d.insert key (String.intercalate " || " items)
  | none => d.insert key ""

/-- `process_ais._parse_text_sections`. -/
def parseTextSections (soup : Soup) : Dict :=
  sectionsToParse.foldl (textSectionStep soup.divs) Dict.empty

/-- `soup.find("table", id=f"MainContent_gvSentence_GridView1_{i}")`: the first
nested sentence table whose id index is `i`. -/
def findNestedTable (tables : List (Nat × List (List String))) (i : Nat) :
    Option (List (List String)) :=
  (tables.find? (fun t => t.1 == i)).map (·.2)

/-- The dict comprehension `{nested_headers[c_idx]: cell ...}`: pairs each cell
with its positional header, raising `IndexError` when a cell has no header. -/
def sentencePairs (headers : List String) : List String → Nat → Except PyErr (List (String × String))
  | [], _ => .ok []
  | c :: cs, i =>
    match headers[i]? with
    | none => .error indexErrorRange
    | some h => do
        let rest ← sentencePairs headers cs (i + 1)
        .ok ((h, c) :: rest)

/-- The inner loop over `nested_table.find_all("tr")[1:]`: one merged record
(`{**summary_info, **sentence_data}`) per sentence row. -/
def parseSentenceRows (summaryInfo : Dict) (headers : List String) :
    List (List String) → Except PyErr (List Dict)
  | [] => .ok []
  | cells :: rest => do
      let pairs ← sentencePairs headers cells 0
      let rest' ← parseSentenceRows summaryInfo headers rest
      .ok (summaryInfo.override (Dict.ofPairs pairs) :: rest')

/-- One iteration of `_parse_incarceration_history`: summary table number `i`
(skipped when it has fewer than two rows, or when no nested table has index `i`;
`nested_table.find("tr")` on a rowless nested table raises `AttributeError`). -/
def parseOneIncarceration (soup : Soup) (i : Nat) (summaryRows : List (List String)) :
    Except PyErr (List Dict) :=
  if summaryRows.length < 2 then .ok []
  else
    let headers := summaryRows.getD 0 []
    let values := summaryRows.getD 1 []
    let summaryInfo :=
      Dict.ofPairs ((headers.zip values).map (fun p => ("Incarceration " ++ p.1, p.2)))
    match findNestedTable soup.nestedTables i with
    | none => .ok []
    | some [] => .error attributeErrorNoneTr
    | some (firstRow :: sentRows) =>
        parseSentenceRows summaryInfo (firstRow.map (fun th => "Sentence " ++ th)) sentRows

/-- The enumerated loop of `_parse_incarceration_history`, starting at index `i`. -/
def parseIncHistAux (soup : Soup) : List (List (List String)) → Nat → Except PyErr (List Dict)
  | [], _ => .ok []
  | t :: ts, i => do
      let ds ← parseOneIncarceration soup i t
      let rest ← parseIncHistAux soup ts (i + 1)
      .ok (ds ++ rest)

/-- `process_ais._parse_incarceration_history`. -/
def parseIncarcerationHistory (soup : Soup) : Except PyErr (List Dict) :=
  parseIncHistAux soup soup.sentenceSummaryTables 0

/-- The base record of `process_ais.parse_final_details_page`: summary, then
demographics, then text sections merged into `{}` (later update wins). -/
def baseInmateData (soup : Soup) (ais : String) : Dict :=
  ((Dict.empty.override (parseInmateSummary soup ais)).override
      (parseDemographics soup)).override (parseTextSections soup)

/-- `process_ais.parse_final_details_page`. -/
def parseFinalDetailsPage (soup : Soup) (ais : String) : Except PyErr (List Dict) := do
  let sentences ← parseIncarcerationHistory soup
  match sentences with
  | [] => .ok [baseInmateData soup ais]
  | _ => .ok (sentences.map (fun s => (baseInmateData soup ais).override s))

/-! ### Enumeration crawler (`collect_ais`) -/

/-- Python's `str.isdigit` restricted to ASCII digits. -/
def isDigitString (s : String) : Bool := !s.isEmpty && s.data.all Char.isDigit

/-- `collect_ais._scrape_ais_numbers_from_page`: the set of all-digit first-cell
texts of the results table (empty when the table is absent). -/
def scrapeAisNumbersFromPage (soup : Soup) : Finset String :=
  match soup.resultsTable with
  | none => ∅
  | some rows =>
    rows.foldl
      (fun fnd c? =>
        match c? with
        | some t => if isDigitString t then insert t fnd else fnd
        | none => fnd)
      ∅

/-- `collect_ais._get_next_page_target`: the name of the first input whose name
contains `"btnNext"`, unless absent or carrying a truthy `disabled` attribute. -/
def getNextPageTarget (soup : Soup) : Option String :=
  match soup.inputs.find? (fun i =>
      match i.name with
      | some n => !n.isEmpty && containsSubstr n "btnNext"
      | none => false) with
  | none => none
  | some b => if !(b.disabledAttr.getD "").isEmpty then none else b.name

/-- How `_paginate_and_scrape` left its loop. -/
inductive TermCause
  | exhausted
  | stalled
deriving DecidableEq

/-- The loop of `collect_ais._paginate_and_scrape` over a page sequence
(`pages n` is the response displayed with page counter `n`; the POST for the
next page is modelled as advancing the counter).  `fuel` bounds the number of
iterations; `none` means the fuel ran out before the loop terminated. -/
def paginateAux (pages : Nat → Soup) : Nat → Nat → Finset String → Option (Finset String × Nat × TermCause)
  | 0, _, _ => none
  | fuel + 1, pageNum, acc =>
    let soup := pages pageNum
    let found := scrapeAisNumbersFromPage soup
    let newlyFoundCount := (found \ acc).card
    let acc' := acc ∪ found
    match getNextPageTarget soup with
    | none => some (acc', pageNum, .exhausted)
    | some _ =>
      if newlyFoundCount = 0 ∧ 1 < pageNum then some (acc', pageNum, .stalled)
      else paginateAux pages fuel (pageNum + 1) acc'

/-- `collect_ais._paginate_and_scrape`, starting from page 1 with an empty set. -/
def paginateAndScrape (pages : Nat → Soup) (fuel : Nat) :
    Option (Finset String × Nat × TermCause) :=
  paginateAux pages fuel 1 ∅

/-- The identifiers accumulated after scraping pages `1..n`. -/
def accUpTo (pages : Nat → Soup) : Nat → Finset String
  | 0 => ∅
  | n + 1 => accUpTo pages n ∪ scrapeAisNumbersFromPage (pages (n + 1))

/-- The loop's exit condition evaluated at page `n`: next-page control absent or
disabled, or (past page 1) no identifier on page `n` outside the running set. -/
def terminalAt (pages : Nat → Soup) (n : Nat) : Bool :=
  (getNextPageTarget (pages n)).isNone ||
    (decide (1 < n) && decide ((scrapeAisNumbersFromPage (pages n) \ accUpTo pages (n - 1)).card = 0))

/-- `collect_ais.collect_for_term`: the body's outcome (`run`) is the scraped
set, or the exception it raised; the except-arm maps any exception to the term
with an empty set and a zero duration. -/
def collectForTerm (term : String) (duration : Nat) (run : Except PyErr (Finset String)) :
    String × Finset String × Nat :=
  match run with
  | .ok found => (term, found, duration)
  | .error _ => (term, ∅, 0)

/-! ### Detail fetch pipeline (`process_ais`) -/

/-- The quote character that `_navigate_to_details_page` splits an href on. -/
def quoteChar : Char := Char.ofNat 39

/-- Python's `s.split(c)` for a one-character separator. -/
def splitOnChar (c : Char) : List Char → List (List Char)
  | [] => [[]]
  | a :: as =>
    let rest := splitOnChar c as
    if a == c then [] :: rest
    else
      match rest with
      | r :: rs => (a :: r) :: rs
      | [] => [[a]]

/-- `link["href"].split(quote)[1]`, with the `try` arm catching exactly the
`KeyError` (missing href) and `IndexError` (fewer than two fields) it can raise:
`none` is the caught outcome. -/
def hrefEventTarget (link : LinkTag) : Option String :=
  match link.href with
  | none => none
  | some h => ((splitOnChar quoteChar h.data).map String.mk)[1]?

/-- `process_ais._navigate_to_details_page`. -/
def navigateToDetailsPage (resultsSoup : Soup) (net : Dict → Except PyErr Soup) :
    Except PyErr (Option Soup) :=
  match resultsSoup.detailLink with
  | none => .ok none
  | some link => do
      let payload ← parseHiddenInputsP resultsSoup
      match hrefEventTarget link with
      | none => .ok none
      | some tgt => do
          let s ← net (payload.insert "__EVENTTARGET" tgt)
          .ok (some s)

/-- `process_ais._post_ais_search`. -/
def postAisSearch (initialSoup : Soup) (ais : String) (net : Dict → Except PyErr Soup) :
    Except PyErr Soup := do
  let payload ← parseHiddenInputsP initialSoup
  net (payload.updateWith
    [("ctl00$MainContent$txtAIS", ais), ("ctl00$MainContent$btnSearch", "Search")])

/-- The record returned when no detail link is found. -/
def notFoundRecord (ais : String) : Dict :=
  Dict.ofPairs [("AIS #", ais), ("Status", "No_Result_Found")]

/-- The record produced by the except-arm of `process_single_ais`. -/
def errorRecord (ais : String) (e : PyErr) : Dict :=
  Dict.ofPairs [("AIS #", ais), ("Status", "Error: " ++ e.kind ++ " - " ++ e.msg)]

/-- The `try` block of `process_ais.process_single_ais`. -/
def processSingleAisBody (ais : String) (netGet : Except PyErr Soup)
    (netSearch netDetails : Dict → Except PyErr Soup) : Except PyErr (List Dict) := do
  let initial ← netGet
  let results ← postAisSearch initial ais netSearch
  let final? ← navigateToDetailsPage results netDetails
  match final? with
  | none => .ok [notFoundRecord ais]
  | some s => parseFinalDetailsPage s ais

/-- `process_ais.process_single_ais`: the `try` block, with any exception
converted into a single status-annotated record. -/
def processSingleAis (ais : String) (netGet : Except PyErr Soup)
    (netSearch netDetails : Dict → Except PyErr Soup) : List Dict :=
  match processSingleAisBody ais netGet netSearch netDetails with
  | .ok records => records
  | .error e => [errorRecord ais e]

/-! ### Checkpoint store and phase-2 resume -/

/-- `collect_ais._run_concurrent_collection`: results are consumed in completion
order and merged (`if term_results: all_ais_numbers.update(term_results)`). -/
def runConcurrentCollection (results : List (String × Finset String × Nat)) : Finset String :=
  results.foldl (fun acc r => if r.2.1 = ∅ then acc else acc ∪ r.2.1) ∅

/-- `collect_ais._save_results_to_file`: one sorted identifier per line. -/
def saveResultsToFile (numbers : Finset String) : String :=
  (numbers.sort (· ≤ ·)).foldl (fun acc n => acc ++ n ++ "\n") ""

/-- The checkpoint-file lines in write order. -/
def saveLines (numbers : Finset String) : List String := numbers.sort (· ≤ ·)

/-- Drop leading whitespace characters. -/
def dropLeadingWs : List Char → List Char
  | [] => []
  | c :: cs => if c.isWhitespace then dropLeadingWs cs else c :: cs

/-- Python's `line.strip()`: drop whitespace from both ends. -/
def pyStrip (s : String) : String :=
  String.mk (dropLeadingWs ((dropLeadingWs s.data.reverse).reverse))

/-- `process_ais.load_target_ais_numbers` applied to the file's raw lines:
`[line.strip() for line in f if line.strip()]`. -/
def loadTargetAisNumbers (lines : List String) : List String :=
  (lines.map pyStrip).filter (· ≠ "")

/-- Why reading the existing output CSV failed. -/
inductive CsvReadError
  | emptyData
  | keyError
  | fileNotFound
  | other (msg : String)
deriving DecidableEq

/-- `process_ais.load_processed_ais_set`: the processed set and resume flag,
given whether the output file exists and the outcome of reading its
identifier column. -/
def loadProcessedAisSet (fileExists : Bool) (readResult : Except CsvReadError (List String)) :
    Finset String × Bool :=
  if fileExists then
    match readResult with
    | .ok column => (column.toFinset, true)
    | .error _ => (∅, false)
  else (∅, false)

/-- The mode `process_and_write_data` opens the output file with. -/
inductive FileMode
  | write
  | append
deriving DecidableEq

/-- Python `open(..., "w")` truncates an existing file; `"a"` keeps it. -/
def FileMode.truncates : FileMode → Bool
  | .write => true
  | .append => false

/-- `file_mode = "a" if is_resuming else "w"` in `process_and_write_data`. -/
def processAndWriteFileMode (isResuming : Bool) : FileMode :=
  if isResuming then .append else .write

/-- The filter in `process_ais.main` computing the remaining work list. -/
def numbersToProcess (allNums : List String) (processed : Finset String) : List String :=
  allNums.filter (fun n => n ∉ processed)

/-- Phase-2 startup (`process_ais.main`): the list actually submitted to the
pool, or `none` when every identifier is already processed (no work at all). -/
def phase2Plan (checkpointLines : List String) (processed : Finset String) :
    Option (List String) :=
  let todo := numbersToProcess (loadTargetAisNumbers checkpointLines) processed
  if todo.isEmpty then none else some todo

/-! ### Claim statements and concrete test pages -/

/-- A hidden input named `n` with a value, as used by the concrete test pages. -/
def mkHiddenInput (n : String) : InputTag := ⟨some n, some ("v" ++ n), true, none⟩

/-- A page carrying all three required hidden fields. -/
def w7ok : Soup := { emptySoup with inputs :=
  [mkHiddenInput "__VIEWSTATE", mkHiddenInput "__VIEWSTATEGENERATOR",
   mkHiddenInput "__EVENTVALIDATION"] }

/-- The mapping both extractors return on `w7ok`. -/
def w7dict : Dict := Dict.ofPairs
  [("__VIEWSTATE", "v__VIEWSTATE"), ("__VIEWSTATEGENERATOR", "v__VIEWSTATEGENERATOR"),
   ("__EVENTVALIDATION", "v__EVENTVALIDATION")]

/-- A transport failure used to exercise the except-arm. -/
def w2err : PyErr := ⟨"ConnectionError", "boom"⟩

/-- A results page whose identifiers and next-page control never change: page 2
repeats page 1 exactly. -/
def stallPage : Soup :=
  { emptySoup with
    inputs := [⟨some "ctl00$btnNext", some "Next", true, none⟩],
    resultsTable := some [some "AIS", some "1234"] }

/-- The constant page sequence serving `stallPage` forever. -/
def stallPages : Nat → Soup := fun _ => stallPage

/-- C6 as stated, for one page/payload pair: the payload binds every hidden
input present on the page. -/
def payloadKeepsEveryHiddenInput (page : Soup) (payload : Dict) : Prop :=
  ∀ inp ∈ page.inputs, inp.hidden = true →
    ∀ n, inp.name = some n → n ≠ "" → (payload n).isSome = true

/-- C6 as stated: every POST payload of both pipelines contains every hidden
input present on the immediately preceding response. -/
def claimEveryPayloadKeepsHiddenInputs : Prop :=
  (∀ soup term, payloadKeepsEveryHiddenInput soup (performInitialSearchPayload soup term)) ∧
  (∀ soup tgt, payloadKeepsEveryHiddenInput soup (paginatePostPayload soup tgt)) ∧
  (∀ soup ais p, postAisSearchPayload soup ais = .ok p →
    payloadKeepsEveryHiddenInput soup p) ∧
  (∀ soup tgt p, navigatePostPayload soup tgt = .ok p →
    payloadKeepsEveryHiddenInput soup p)

/-- A hidden input that is not one of the three required tokens. -/
def extraHiddenInput : InputTag := ⟨some "extra", some "x", true, none⟩

/-- A page carrying the three tokens plus one further hidden input. -/
def w6soup : Soup := { emptySoup with inputs :=
  [mkHiddenInput "__VIEWSTATE", mkHiddenInput "__VIEWSTATEGENERATOR",
   mkHiddenInput "__EVENTVALIDATION", extraHiddenInput] }

/-- The payload `_post_ais_search` builds on `w6soup`. -/
def w6payload : Dict := w7dict.updateWith
  [("ctl00$MainContent$txtAIS", "1"), ("ctl00$MainContent$btnSearch", "Search")]

/-- The payload `_post_ais_search` builds on `w6soup` for identifier `55`. -/
def w6payload55 : Dict := w7dict.updateWith
  [("ctl00$MainContent$txtAIS", "55"), ("ctl00$MainContent$btnSearch", "Search")]

/-- C4 as stated: whenever the search-results page has no recognised detail
link, or has one whose postback-target extraction (split the href on the quote
character, take the second field) fails, `process_single_ais` returns exactly
the single `No_Result_Found` record carrying the requested identifier. -/
def claimNoResultFound : Prop :=
  ∀ (initial results : Soup) (netDetails : Dict → Except PyErr Soup) (ais : String),
    (∃ tok, parseHiddenInputsP initial = .ok tok) →
    (results.detailLink = none ∨
      ∃ l, results.detailLink = some l ∧ hrefEventTarget l = none) →
    processSingleAis ais (.ok initial) (fun _ => .ok results) netDetails =
      [notFoundRecord ais]

/-- A results page whose link's href holds no quoted postback target and whose
hidden token inputs are absent. -/
def w4badResults : Soup := { emptySoup with detailLink := some ⟨some "javascript:doPostBack"⟩ }

/-- A results page with the three tokens but a link whose href holds no quote. -/
def w4splitFail : Soup :=
  { emptySoup with inputs := w7ok.inputs, detailLink := some ⟨some "nohquote"⟩ }

/-- Two term results with overlapping identifier sets. -/
def w8results : List (String × Finset String × Nat) :=
  [("a", {"2", "1"}, 5), ("b", {"1"}, 3)]

/-- The same two term results arriving in the other completion order. -/
def w8swapped : List (String × Finset String × Nat) :=
  [("b", {"1"}, 3), ("a", {"2", "1"}, 5)]

/-- Whether the summary view cannot supply the identifier: the view, the
identifier row, or its span is missing. -/
def identifierFallsBack (soup : Soup) : Bool :=
  match soup.summaryView with
  | none => true
  | some rows =>
    match rows[1]? with
    | some (some _) => false
    | _ => true

/-- C5 as stated: every record of `parse_final_details_page` carries the
`AIS #` field, and its value is the requested identifier whenever the summary
view, the identifier row, or its span is missing. -/
def claimAisFieldFallback : Prop :=
  ∀ (soup : Soup) (ais : String) (l : List Dict),
    parseFinalDetailsPage soup ais = .ok l →
    ∀ d ∈ l, (d "AIS #").isSome = true ∧
      (identifierFallsBack soup = true → d "AIS #" = some ais)

/-- A details page with no summary view whose demographics table carries an
`AIS #:` row of its own. -/
def w5shadow : Soup := { emptySoup with demographicsTable := some [["AIS #:", "999"]] }

/-- A details page whose summary view has only the name row, so the identifier
row is missing. -/
def w5fall : Soup := { emptySoup with summaryView := some [some "DOE JOHN"] }

/-- The record count claim C3 predicts: one record per sentence row (rows after
the header row) of each nested table whose id index matches a summary table
position, regardless of the summary table's own row count. -/
def claimCountAux (soup : Soup) : List (List (List String)) → Nat → Nat
  | [], _ => 0
  | _ :: ts, i =>
    (match findNestedTable soup.nestedTables i with
     | none => 0
     | some nrows => nrows.tail.length) + claimCountAux soup ts (i + 1)

/-- The record count claim C3 predicts for a whole page. -/
def claimCount (soup : Soup) : Nat := claimCountAux soup soup.sentenceSummaryTables 0

/-- C3 as stated (its record-count content, which the full claim implies):
`parse_final_details_page` yields one record per index-matched sentence row,
and exactly one base record when there are none. -/
def claimPerSentenceRowCount : Prop :=
  ∀ (soup : Soup) (ais : String) (l : List Dict),
    parseFinalDetailsPage soup ais = .ok l →
    l.length = (if claimCount soup = 0 then 1 else claimCount soup)

/-- A page with one single-row summary table whose index-matched nested table
has a header row and two sentence rows. -/
def w3cex : Soup := { emptySoup with
  sentenceSummaryTables := [[["H"]]],
  nestedTables := [(0, [["h"], ["c1"], ["c2"]])] }

/-- The well-formedness of the nested tables needed for an exception-free
parse: each has a header row, and no sentence row is wider than it. -/
def nestedWellFormed (tables : List (Nat × List (List String))) : Bool :=
  tables.all (fun p =>
    !p.2.isEmpty && p.2.tail.all (fun r => r.length ≤ p.2.headI.length))

/-- The record count the code produces: as `claimCountAux`, but a nested table
counts only when its matching summary table has at least two rows. -/
def matchedSentenceRowCount (soup : Soup) : List (List (List String)) → Nat → Nat
  | [], _ => 0
  | t :: ts, i =>
    (if t.length < 2 then 0
     else match findNestedTable soup.nestedTables i with
       | none => 0
       | some nrows => nrows.tail.length) + matchedSentenceRowCount soup ts (i + 1)

/-- A page with two summary tables of two rows each, whose index-matched nested
tables have one and two sentence rows respectively. -/
def w3good : Soup := { emptySoup with
  sentenceSummaryTables := [[["h1"], ["v1"]], [["h2"], ["v2"]]],
  nestedTables := [(0, [["sh"], ["c1"]]), (1, [["sh"], ["c1"], ["c2"]])] }

/-! ### Basic lemmas about the dict model -/

theorem except_bind_ok {ε α β : Type} (a : α) (f : α → Except ε β) :
    (Except.ok a >>= f) = f a := rfl

theorem except_bind_err {ε α β : Type} (e : ε) (f : α → Except ε β) :
    (Except.error e >>= f) = Except.error e := rfl

theorem Dict.insert_same (d : Dict) (k v : String) : (d.insert k v) k = some v := by
  simp [Dict.insert]

theorem Dict.insert_ne (d : Dict) (k v : String) {x : String} (h : x ≠ k) :
    (d.insert k v) x = d x := by
  simp [Dict.insert, h]

theorem Dict.insert_isSome (d : Dict) (k v : String) {x : String}
    (h : (d x).isSome = true) : ((d.insert k v) x).isSome = true := by
  unfold Dict.insert
  split <;> simp [h]

theorem Dict.updateWith_isSome (d : Dict) (kvs : List (String × String)) {x : String}
    (h : (d x).isSome = true) : ((d.updateWith kvs) x).isSome = true := by
  induction kvs generalizing d with
  | nil => exact h
  | cons p ps ih => exact ih (d.insert p.1 p.2) (Dict.insert_isSome d p.1 p.2 h)

theorem Dict.updateWith_notMem (d : Dict) (kvs : List (String × String)) {k : String}
    (h : ∀ p ∈ kvs, p.1 ≠ k) : (d.updateWith kvs) k = d k := by
  induction kvs generalizing d with
  | nil => rfl
  | cons p ps ih =>
      have hk : k ≠ p.1 := fun he => h p (List.mem_cons_self p ps) he.symm
      calc (d.updateWith (p :: ps)) k
          = ((d.insert p.1 p.2).updateWith ps) k := rfl
        _ = (d.insert p.1 p.2) k := ih _ (fun q hq => h q (List.mem_cons_of_mem _ hq))
        _ = d k := Dict.insert_ne _ _ _ hk

theorem Dict.ofPairs_notMem (kvs : List (String × String)) {k : String}
    (h : ∀ p ∈ kvs, p.1 ≠ k) : (Dict.ofPairs kvs) k = none :=
  Dict.updateWith_notMem _ kvs h

theorem Dict.override_of_some (b o : Dict) {x : String} {v : String} (h : o x = some v) :
    (b.override o) x = some v := by
  simp [Dict.override, h]

theorem Dict.override_of_none (b o : Dict) {x : String} (h : o x = none) :
    (b.override o) x = b x := by
  simp [Dict.override, h]

theorem Dict.override_isSome (b o : Dict) {x : String} (h : (b x).isSome = true) :
    ((b.override o) x).isSome = true := by
  unfold Dict.override
  cases o x <;> simp [h]

theorem Dict.override_isSome_right (b o : Dict) {x : String} (h : (o x).isSome = true) :
    ((b.override o) x).isSome = true := by
  unfold Dict.override
  cases ho : o x
  · rw [ho] at h; exact absurd h (by simp)
  · simp

/-! ### The three-token dict -/

theorem threeTokenDict_lookup (v1 v2 v3 : String) :
    (Dict.ofPairs [("__VIEWSTATE", v1), ("__VIEWSTATEGENERATOR", v2),
        ("__EVENTVALIDATION", v3)]) "__VIEWSTATE" = some v1 ∧
    (Dict.ofPairs [("__VIEWSTATE", v1), ("__VIEWSTATEGENERATOR", v2),
        ("__EVENTVALIDATION", v3)]) "__VIEWSTATEGENERATOR" = some v2 ∧
    (Dict.ofPairs [("__VIEWSTATE", v1), ("__VIEWSTATEGENERATOR", v2),
        ("__EVENTVALIDATION", v3)]) "__EVENTVALIDATION" = some v3 ∧
    ∀ k, k ≠ "__VIEWSTATE" → k ≠ "__VIEWSTATEGENERATOR" → k ≠ "__EVENTVALIDATION" →
      (Dict.ofPairs [("__VIEWSTATE", v1), ("__VIEWSTATEGENERATOR", v2),
        ("__EVENTVALIDATION", v3)]) k = none := by
  refine ⟨?_, ?_, ?_, ?_⟩
  · simp [Dict.ofPairs, Dict.updateWith, Dict.insert]
  · simp [Dict.ofPairs, Dict.updateWith, Dict.insert]
  · simp [Dict.ofPairs, Dict.updateWith, Dict.insert]
  · intro k h1 h2 h3
    simp [Dict.ofPairs, Dict.updateWith, Dict.insert, Dict.empty, h1, h2, h3]

theorem parseHiddenInputsP_ok_shape (soup : Soup) (d : Dict)
    (h : parseHiddenInputsP soup = .ok d) :
    ∃ v1 v2 v3, d = Dict.ofPairs
      [("__VIEWSTATE", v1), ("__VIEWSTATEGENERATOR", v2), ("__EVENTVALIDATION", v3)] := by
  unfold parseHiddenInputsP at h
  cases hf1 : findInputNamed soup.inputs "__VIEWSTATE" with
  | none => rw [hf1] at h; exact absurd h (by simp)
  | some t1 =>
  cases hf2 : findInputNamed soup.inputs "__VIEWSTATEGENERATOR" with
  | none => rw [hf1, hf2] at h; exact absurd h (by simp)
  | some t2 =>
  cases hf3 : findInputNamed soup.inputs "__EVENTVALIDATION" with
  | none => rw [hf1, hf2, hf3] at h; exact absurd h (by simp)
  | some t3 =>
    rw [hf1, hf2, hf3] at h
    dsimp only at h
    cases hv1 : attrValue t1 with
    | error e => rw [hv1, except_bind_err] at h; exact absurd h (by simp)
    | ok v1 =>
      rw [hv1, except_bind_ok] at h
      cases hv2 : attrValue t2 with
      | error e => rw [hv2, except_bind_err] at h; exact absurd h (by simp)
      | ok v2 =>
        rw [hv2, except_bind_ok] at h
        cases hv3 : attrValue t3 with
        | error e => rw [hv3, except_bind_err] at h; exact absurd h (by simp)
        | ok v3 =>
          rw [hv3, except_bind_ok] at h
          exact ⟨v1, v2, v3, (Except.ok.inj h).symm⟩

theorem parseHiddenInputsC_ok_shape (soup : Soup) (d : Dict)
    (h : parseHiddenInputsC soup = .ok d) :
    ∃ v1 v2 v3, d = Dict.ofPairs
      [("__VIEWSTATE", v1), ("__VIEWSTATEGENERATOR", v2), ("__EVENTVALIDATION", v3)] := by
  unfold parseHiddenInputsC at h
  cases hv1 : subscriptValue (findInputNamed soup.inputs "__VIEWSTATE") with
  | error e => rw [hv1, except_bind_err] at h; exact absurd h (by simp)
  | ok v1 =>
    rw [hv1, except_bind_ok] at h
    cases hv2 : subscriptValue (findInputNamed soup.inputs "__VIEWSTATEGENERATOR") with
    | error e => rw [hv2, except_bind_err] at h; exact absurd h (by simp)
    | ok v2 =>
      rw [hv2, except_bind_ok] at h
      cases hv3 : subscriptValue (findInputNamed soup.inputs "__EVENTVALIDATION") with
      | error e => rw [hv3, except_bind_err] at h; exact absurd h (by simp)
      | ok v3 =>
        rw [hv3, except_bind_ok] at h
        exact ⟨v1, v2, v3, (Except.ok.inj h).symm⟩

theorem parseHiddenInputsP_error_of_missing (soup : Soup)
    (h : findInputNamed soup.inputs "__VIEWSTATE" = none ∨
         findInputNamed soup.inputs "__VIEWSTATEGENERATOR" = none ∨
         findInputNamed soup.inputs "__EVENTVALIDATION" = none) :
    parseHiddenInputsP soup = .error valueErrorMissingInput := by
  unfold parseHiddenInputsP
  cases hf1 : findInputNamed soup.inputs "__VIEWSTATE" with
  | none => rfl
  | some t1 =>
  cases hf2 : findInputNamed soup.inputs "__VIEWSTATEGENERATOR" with
  | none => rfl
  | some t2 =>
  cases hf3 : findInputNamed soup.inputs "__EVENTVALIDATION" with
  | none => rfl
  | some t3 => simp [hf1, hf2, hf3] at h

theorem parseHiddenInputsC_error_of_missing (soup : Soup)
    (h : findInputNamed soup.inputs "__VIEWSTATE" = none ∨
         findInputNamed soup.inputs "__VIEWSTATEGENERATOR" = none ∨
         findInputNamed soup.inputs "__EVENTVALIDATION" = none) :
    ∃ e, parseHiddenInputsC soup = .error e := by
  unfold parseHiddenInputsC
  rcases h with h | h | h
  · exact ⟨typeErrorNoneSub, by rw [h]; rfl⟩
  · cases hv1 : subscriptValue (findInputNamed soup.inputs "__VIEWSTATE") with
    | error e => exact ⟨e, by rw [except_bind_err]⟩
    | ok v1 => exact ⟨typeErrorNoneSub, by rw [except_bind_ok, h]; rfl⟩
  · cases hv1 : subscriptValue (findInputNamed soup.inputs "__VIEWSTATE") with
    | error e => exact ⟨e, by rw [except_bind_err]⟩
    | ok v1 =>
      cases hv2 : subscriptValue (findInputNamed soup.inputs "__VIEWSTATEGENERATOR") with
      | error e => exact ⟨e, by rw [except_bind_ok, except_bind_err]⟩
      | ok v2 => exact ⟨typeErrorNoneSub, by rw [except_bind_ok, except_bind_ok, h]; rfl⟩

/-! ### Claim C7 -/

/-- C7: for every page, token extraction fails with a raised exception when any
of the three required hidden fields (`__VIEWSTATE`, `__VIEWSTATEGENERATOR`,
`__EVENTVALIDATION`) is absent — the `ValueError` of `process_ais` (the spec's
`ProtocolError`), and a raised `TypeError` in `collect_ais` — and whenever
either version returns a mapping at all, that mapping binds all three required
keys and nothing else: a partially-built mapping of only the present fields is
never returned. -/
theorem hidden_inputs_all_or_error :
    ∀ soup : Soup,
      ((findInputNamed soup.inputs "__VIEWSTATE" = none ∨
        findInputNamed soup.inputs "__VIEWSTATEGENERATOR" = none ∨
        findInputNamed soup.inputs "__EVENTVALIDATION" = none) →
        parseHiddenInputsP soup = .error valueErrorMissingInput ∧
        ∃ e, parseHiddenInputsC soup = .error e) ∧
      ∀ d : Dict, (parseHiddenInputsP soup = .ok d ∨ parseHiddenInputsC soup = .ok d) →
        (d "__VIEWSTATE").isSome = true ∧ (d "__VIEWSTATEGENERATOR").isSome = true ∧
        (d "__EVENTVALIDATION").isSome = true ∧
        ∀ k, k ≠ "__VIEWSTATE" → k ≠ "__VIEWSTATEGENERATOR" → k ≠ "__EVENTVALIDATION" →
          d k = none := by
  intro soup
  constructor
  · intro h
    exact ⟨parseHiddenInputsP_error_of_missing soup h,
           parseHiddenInputsC_error_of_missing soup h⟩
  · intro d hd
    have hshape : ∃ v1 v2 v3, d = Dict.ofPairs
        [("__VIEWSTATE", v1), ("__VIEWSTATEGENERATOR", v2), ("__EVENTVALIDATION", v3)] := by
      rcases hd with hd | hd
      · exact parseHiddenInputsP_ok_shape soup d hd
      · exact parseHiddenInputsC_ok_shape soup d hd
    obtain ⟨v1, v2, v3, rfl⟩ := hshape
    obtain ⟨e1, e2, e3, e4⟩ := threeTokenDict_lookup v1 v2 v3
    exact ⟨by rw [e1]; rfl, by rw [e2]; rfl, by rw [e3]; rfl, e4⟩

theorem hidden_inputs_all_or_error_witness :
    (parseHiddenInputsP emptySoup = .error valueErrorMissingInput ∧
      ∃ e, parseHiddenInputsC emptySoup = .error e) ∧
    (w7dict "__VIEWSTATE").isSome = true :=
  ⟨(hidden_inputs_all_or_error emptySoup).1 (Or.inl rfl),
   ((hidden_inputs_all_or_error w7ok).2 w7dict (Or.inl rfl)).1⟩

/-! ### Claim C2 -/

/-- C2: per-unit failures are caught at the task boundary: an exception in
`collect_for_term`'s body yields the term paired with the empty set (and a zero
duration), and an exception anywhere in `process_single_ais`'s request/parse
chain yields exactly one record carrying the requested identifier and a
`Status` of the form `Error: kind - message`; neither propagates. -/
theorem task_boundary_errors_become_recorded_outcomes :
    ∀ (term : String) (duration : Nat) (e : PyErr) (ais : String)
      (netGet : Except PyErr Soup) (netSearch netDetails : Dict → Except PyErr Soup),
      collectForTerm term duration (.error e) = (term, ∅, 0) ∧
      (processSingleAisBody ais netGet netSearch netDetails = .error e →
        processSingleAis ais netGet netSearch netDetails = [errorRecord ais e]) ∧
      (errorRecord ais e) "AIS #" = some ais ∧
      (errorRecord ais e) "Status" = some ("Error: " ++ e.kind ++ " - " ++ e.msg) := by
  intro term duration e ais netGet netSearch netDetails
  refine ⟨rfl, ?_, ?_, ?_⟩
  · intro h
    unfold processSingleAis
    rw [h]
  · rfl
  · rfl

theorem task_boundary_error_witness :
    processSingleAis "123" (.error w2err) (fun _ => .error w2err) (fun _ => .error w2err)
      = [errorRecord "123" w2err] :=
  (task_boundary_errors_become_recorded_outcomes "x" 0 w2err "123" (.error w2err)
      (fun _ => .error w2err) (fun _ => .error w2err)).2.1 rfl

/-! ### Claim C9 -/

/-- C9: at phase-2 startup the submitted set is exactly the checkpoint list
minus the already-processed identifiers; no already-present identifier is
submitted again, and when nothing remains no work is planned at all. -/
theorem phase2_processes_exactly_remaining :
    ∀ (checkpointLines : List String) (processed : Finset String),
      (numbersToProcess (loadTargetAisNumbers checkpointLines) processed).toFinset
          = (loadTargetAisNumbers checkpointLines).toFinset \ processed ∧
      (∀ x ∈ numbersToProcess (loadTargetAisNumbers checkpointLines) processed,
        x ∉ processed) ∧
      (phase2Plan checkpointLines processed = none ↔
        ∀ x ∈ loadTargetAisNumbers checkpointLines, x ∈ processed) := by
  intro lines processed
  refine ⟨?_, ?_, ?_⟩
  · ext x
    simp [numbersToProcess, List.mem_filter]
  · intro x hx
    have := (List.mem_filter.mp hx).2
    simpa using this
  · unfold phase2Plan numbersToProcess
    constructor
    · intro h x hx
      by_contra hnot
      have hne : ¬((loadTargetAisNumbers lines).filter (fun n => decide (n ∉ processed))).isEmpty = true := by
        rw [List.isEmpty_iff]
        intro hempty
        have : x ∈ (loadTargetAisNumbers lines).filter (fun n => decide (n ∉ processed)) :=
          List.mem_filter.mpr ⟨hx, by simpa using hnot⟩
        rw [hempty] at this
        exact absurd this (List.not_mem_nil x)
      simp [hne] at h
      exact hnot (h x hx)
    · intro h
      have : ((loadTargetAisNumbers lines).filter (fun n => decide (n ∉ processed))) = [] := by
        rw [List.filter_eq_nil_iff]
        intro a ha
        simpa using h a ha
      rw [this]
      rfl

theorem phase2_remaining_witness :
    (numbersToProcess (loadTargetAisNumbers ["1", " 2\n"]) ({"1"} : Finset String)).toFinset
        = (loadTargetAisNumbers ["1", " 2\n"]).toFinset \ {"1"} ∧
    "2" ∉ ({"1"} : Finset String) ∧
    (phase2Plan ["1", " 2\n"] {"1"} = none ↔
      ∀ x ∈ loadTargetAisNumbers ["1", " 2\n"], x ∈ ({"1"} : Finset String)) :=
  have h := phase2_processes_exactly_remaining ["1", " 2\n"] {"1"}
  ⟨h.1, h.2.1 "2" (by decide), h.2.2⟩

/-! ### Claim C10 -/

/-- C10: when the output file exists but its identifier column cannot be read
(empty file, missing column, or any other read error), `load_processed_ais_set`
reports an empty processed set and `is_resuming = False`, so phase 2 opens the
output in write mode, truncating whatever the file held. -/
theorem unreadable_output_starts_fresh :
    ∀ e : CsvReadError,
      loadProcessedAisSet true (.error e) = (∅, false) ∧
      processAndWriteFileMode (loadProcessedAisSet true (.error e)).2 = .write ∧
      (processAndWriteFileMode (loadProcessedAisSet true (.error e)).2).truncates = true := by
  intro e
  exact ⟨rfl, rfl, rfl⟩

/-! ### Claim C1 -/

theorem accUpTo_union_step (pages : Nat → Soup) (n : Nat) (h : 1 ≤ n) :
    accUpTo pages (n - 1) ∪ scrapeAisNumbersFromPage (pages n) = accUpTo pages n := by
  cases n with
  | zero => omega
  | succ m => rfl

theorem terminalAt_iff (pages : Nat → Soup) (n : Nat) :
    terminalAt pages n = true ↔
      getNextPageTarget (pages n) = none ∨
        (1 < n ∧ (scrapeAisNumbersFromPage (pages n) \ accUpTo pages (n - 1)).card = 0) := by
  simp [terminalAt, Option.isNone_iff_eq_none, and_comm]

theorem paginateAux_reaches (pages : Nat → Soup) (k : Nat)
    (hterm : terminalAt pages k = true)
    (hmin : ∀ j, j < k → 1 ≤ j → terminalAt pages j = false) :
    ∀ fuel n, 1 ≤ n → n ≤ k → k + 1 ≤ n + fuel →
      paginateAux pages fuel n (accUpTo pages (n - 1)) =
        some (accUpTo pages k, k,
          if (getNextPageTarget (pages k)).isNone then TermCause.exhausted
          else TermCause.stalled) := by
  intro fuel
  induction fuel with
  | zero => intro n _ h2 h3; omega
  | succ f ih =>
    intro n h1 h2 h3
    have hstep : paginateAux pages (f + 1) n (accUpTo pages (n - 1)) =
        match getNextPageTarget (pages n) with
        | none => some (accUpTo pages (n - 1) ∪ scrapeAisNumbersFromPage (pages n), n,
            TermCause.exhausted)
        | some _ =>
          if (scrapeAisNumbersFromPage (pages n) \ accUpTo pages (n - 1)).card = 0 ∧ 1 < n
          then some (accUpTo pages (n - 1) ∪ scrapeAisNumbersFromPage (pages n), n,
            TermCause.stalled)
          else paginateAux pages f (n + 1)
            (accUpTo pages (n - 1) ∪ scrapeAisNumbersFromPage (pages n)) := rfl
    rw [hstep]
    cases hnext : getNextPageTarget (pages n) with
    | none =>
      have hnk : n = k := by
        by_contra hne
        have hlt : n < k := lt_of_le_of_ne h2 hne
        have hfalse := hmin n hlt h1
        have htrue : terminalAt pages n = true :=
          (terminalAt_iff pages n).mpr (Or.inl hnext)
        rw [hfalse] at htrue
        exact absurd htrue (by simp)
      subst hnk
      rw [accUpTo_union_step pages n h1]
      have : (getNextPageTarget (pages n)).isNone = true := by simp [hnext]
      rw [if_pos this]
    | some tgt =>
      by_cases hcond :
          (scrapeAisNumbersFromPage (pages n) \ accUpTo pages (n - 1)).card = 0 ∧ 1 < n
      · rw [if_pos hcond]
        have hnk : n = k := by
          by_contra hne
          have hlt : n < k := lt_of_le_of_ne h2 hne
          have hfalse := hmin n hlt h1
          have htrue : terminalAt pages n = true :=
            (terminalAt_iff pages n).mpr (Or.inr ⟨hcond.2, hcond.1⟩)
          rw [hfalse] at htrue
          exact absurd htrue (by simp)
        subst hnk
        rw [accUpTo_union_step pages n h1]
        have : (getNextPageTarget (pages n)).isNone = false := by simp [hnext]
        rw [this]
        rfl
      · rw [if_neg hcond]
        have hnk : n < k := by
          rcases lt_or_eq_of_le h2 with h | h
          · exact h
          · subst h
            rw [terminalAt_iff] at hterm
            rcases hterm with h | h
            · rw [hnext] at h; exact absurd h (by simp)
            · exact absurd ⟨h.2, h.1⟩ hcond
        rw [accUpTo_union_step pages n h1]
        have hres := ih (n + 1) (by omega) (by omega) (by omega)
        simpa using hres

/-- C1: for every page sequence, the pagination loop of `_paginate_and_scrape`
returns exactly at the first page `k` at which either the next-page control is
absent or disabled (cause `exhausted`), or `k > 1` and the page's identifiers
minus the running set are empty while a next-page control is present (cause
`stalled`); the returned set is everything scraped on pages `1..k`. -/
theorem paginate_terminates_at_first_terminal_page :
    ∀ (pages : Nat → Soup) (k fuel : Nat),
      1 ≤ k → terminalAt pages k = true →
      (∀ j, j < k → 1 ≤ j → terminalAt pages j = false) →
      k ≤ fuel →
      paginateAndScrape pages fuel =
        some (accUpTo pages k, k,
          if (getNextPageTarget (pages k)).isNone then TermCause.exhausted
          else TermCause.stalled) := by
  intro pages k fuel hk hterm hmin hfuel
  have h := paginateAux_reaches pages k hterm hmin fuel 1 le_rfl hk (by omega)
  exact h

theorem paginate_stall_on_page_two_witness :
    paginateAndScrape stallPages 5 =
      some (accUpTo stallPages 2, 2,
        if (getNextPageTarget (stallPages 2)).isNone then TermCause.exhausted
        else TermCause.stalled) ∧
    accUpTo stallPages 2 = {"1234"} ∧
    (if (getNextPageTarget (stallPages 2)).isNone then TermCause.exhausted
      else TermCause.stalled) = TermCause.stalled :=
  ⟨paginate_terminates_at_first_terminal_page stallPages 2 5 (by decide) (by decide)
      (by decide) (by decide),
    by decide, by decide⟩

/-! ### Claim C6 -/

theorem except_map_ok {ε α β : Type} (a : α) (f : α → β) :
    (Except.ok a : Except ε α).map f = .ok (f a) := rfl

theorem except_map_err {ε α β : Type} (e : ε) (f : α → β) :
    (Except.error e : Except ε α).map f = .error e := rfl

theorem updateWith_two_fst (d : Dict) (k1 v1 k2 v2 : String) (hne : k1 ≠ k2) :
    (d.updateWith [(k1, v1), (k2, v2)]) k1 = some v1 := by
  calc (d.updateWith [(k1, v1), (k2, v2)]) k1
      = ((d.insert k1 v1).insert k2 v2) k1 := rfl
    _ = (d.insert k1 v1) k1 := Dict.insert_ne _ _ _ hne
    _ = some v1 := Dict.insert_same _ _ _

theorem updateWith_two_snd (d : Dict) (k1 v1 k2 v2 : String) :
    (d.updateWith [(k1, v1), (k2, v2)]) k2 = some v2 := by
  calc (d.updateWith [(k1, v1), (k2, v2)]) k2
      = ((d.insert k1 v1).insert k2 v2) k2 := rfl
    _ = some v2 := Dict.insert_same _ _ _

theorem updateWith_two_other (d : Dict) (k1 v1 k2 v2 : String) {x : String}
    (h1 : x ≠ k1) (h2 : x ≠ k2) :
    (d.updateWith [(k1, v1), (k2, v2)]) x = d x := by
  calc (d.updateWith [(k1, v1), (k2, v2)]) x
      = ((d.insert k1 v1).insert k2 v2) x := rfl
    _ = (d.insert k1 v1) x := Dict.insert_ne _ _ _ h2
    _ = d x := Dict.insert_ne _ _ _ h1

theorem extractFold_isSome (l : List InputTag) (d : Dict) (x : String)
    (h : (d x).isSome = true ∨ ∃ inp ∈ l, inp.name = some x ∧ x ≠ "") :
    ((l.foldl (fun p inp =>
      match inp.name with
      | some n => if n = "" then p else p.insert n (inp.value.getD "")
      | none => p) d) x).isSome = true := by
  induction l generalizing d with
  | nil =>
    rcases h with h | ⟨inp, hmem, _⟩
    · exact h
    · exact absurd hmem (List.not_mem_nil inp)
  | cons i is ih =>
    rw [List.foldl_cons]
    rcases h with h | ⟨inp, hmem, hname, hx⟩
    · refine ih _ (Or.inl ?_)
      cases hn : i.name with
      | none => exact h
      | some n =>
        dsimp only
        split
        · exact h
        · exact Dict.insert_isSome _ _ _ h
    · rcases List.mem_cons.mp hmem with rfl | hmem'
      · rw [hname]
        dsimp only
        rw [if_neg hx]
        refine ih _ (Or.inl ?_)
        rw [Dict.insert_same]
        rfl
      · exact ih _ (Or.inr ⟨inp, hmem', hname, hx⟩)

theorem extractFormPayload_isSome (soup : Soup) {inp : InputTag} {n : String}
    (hmem : inp ∈ soup.inputs) (hh : inp.hidden = true) (hname : inp.name = some n)
    (hne : n ≠ "") : ((extractFormPayload soup) n).isSome = true :=
  extractFold_isSome (soup.inputs.filter (·.hidden)) Dict.empty n
    (Or.inr ⟨inp, List.mem_filter.mpr ⟨hmem, hh⟩, hname, hne⟩)

theorem postAisSearchPayload_ok_shape (soup : Soup) (ais : String) (p : Dict)
    (h : postAisSearchPayload soup ais = .ok p) :
    ∃ tok, parseHiddenInputsP soup = .ok tok ∧
      p = tok.updateWith
        [("ctl00$MainContent$txtAIS", ais), ("ctl00$MainContent$btnSearch", "Search")] := by
  unfold postAisSearchPayload at h
  cases hp : parseHiddenInputsP soup with
  | error e => rw [hp, except_map_err] at h; exact absurd h (by simp)
  | ok tok =>
    rw [hp, except_map_ok] at h
    exact ⟨tok, rfl, (Except.ok.inj h).symm⟩

theorem navigatePostPayload_ok_shape (soup : Soup) (tgt : String) (p : Dict)
    (h : navigatePostPayload soup tgt = .ok p) :
    ∃ tok, parseHiddenInputsP soup = .ok tok ∧ p = tok.insert "__EVENTTARGET" tgt := by
  unfold navigatePostPayload at h
  cases hp : parseHiddenInputsP soup with
  | error e => rw [hp, except_map_err] at h; exact absurd h (by simp)
  | ok tok =>
    rw [hp, except_map_ok] at h
    exact ⟨tok, rfl, (Except.ok.inj h).symm⟩

/-- C6 counterexample: on a page carrying a hidden input named `extra` besides
the three tokens, the payload built by `_post_ais_search` (which starts from
`parse_hidden_inputs`, not `_extract_form_payload`) does not contain `extra`,
so the claim that every POST of both pipelines keeps every hidden input fails. -/
theorem payload_claim_refuted : ¬ claimEveryPayloadKeepsHiddenInputs := by
  intro h
  obtain ⟨-, -, h3, -⟩ := h
  have hmem : extraHiddenInput ∈ w6soup.inputs := by decide
  have hsome := h3 w6soup "1" w6payload rfl extraHiddenInput hmem rfl "extra" rfl (by decide)
  have hnone : w6payload "extra" = none := rfl
  rw [hnone] at hsome
  exact absurd hsome (by simp)

/-- C6 amended: the enumeration pipeline's two POST payloads do contain every
hidden input of the preceding page merged with the caller-supplied fields
(caller wins on collision); the detail-fetch pipeline's two POST payloads
instead contain exactly the three required anti-forgery tokens merged with the
caller-supplied fields (caller wins), and no other hidden input. -/
theorem payload_construction_amended :
    (∀ (soup : Soup) (term : String),
        (performInitialSearchPayload soup term) "ctl00$MainContent$txtLName" = some term ∧
        (performInitialSearchPayload soup term) "ctl00$MainContent$btnSearch" = some "Search" ∧
        ∀ inp ∈ soup.inputs, inp.hidden = true → ∀ n, inp.name = some n → n ≠ "" →
          ((performInitialSearchPayload soup term) n).isSome = true) ∧
    (∀ (soup : Soup) (tgt : String),
        (paginatePostPayload soup tgt) "__EVENTTARGET" = some tgt ∧
        ∀ inp ∈ soup.inputs, inp.hidden = true → ∀ n, inp.name = some n → n ≠ "" →
          ((paginatePostPayload soup tgt) n).isSome = true) ∧
    (∀ (soup : Soup) (ais : String) (p : Dict), postAisSearchPayload soup ais = .ok p →
        p "ctl00$MainContent$txtAIS" = some ais ∧
        p "ctl00$MainContent$btnSearch" = some "Search" ∧
        (p "__VIEWSTATE").isSome = true ∧ (p "__VIEWSTATEGENERATOR").isSome = true ∧
        (p "__EVENTVALIDATION").isSome = true ∧
        ∀ k, k ≠ "__VIEWSTATE" → k ≠ "__VIEWSTATEGENERATOR" → k ≠ "__EVENTVALIDATION" →
          k ≠ "ctl00$MainContent$txtAIS" → k ≠ "ctl00$MainContent$btnSearch" → p k = none) ∧
    (∀ (soup : Soup) (tgt : String) (p : Dict), navigatePostPayload soup tgt = .ok p →
        p "__EVENTTARGET" = some tgt ∧
        ∀ k, k ≠ "__VIEWSTATE" → k ≠ "__VIEWSTATEGENERATOR" → k ≠ "__EVENTVALIDATION" →
          k ≠ "__EVENTTARGET" → p k = none) := by
  refine ⟨?_, ?_, ?_, ?_⟩
  · intro soup term
    refine ⟨updateWith_two_fst _ _ _ _ _ (by decide), updateWith_two_snd _ _ _ _ _, ?_⟩
    intro inp hmem hh n hname hne
    exact Dict.updateWith_isSome _ _ (extractFormPayload_isSome soup hmem hh hname hne)
  · intro soup tgt
    refine ⟨Dict.insert_same _ _ _, ?_⟩
    intro inp hmem hh n hname hne
    exact Dict.insert_isSome _ _ _ (extractFormPayload_isSome soup hmem hh hname hne)
  · intro soup ais p hp
    obtain ⟨tok, htok, rfl⟩ := postAisSearchPayload_ok_shape soup ais p hp
    obtain ⟨v1, v2, v3, rfl⟩ := parseHiddenInputsP_ok_shape soup tok htok
    obtain ⟨e1, e2, e3, e4⟩ := threeTokenDict_lookup v1 v2 v3
    refine ⟨updateWith_two_fst _ _ _ _ _ (by decide), updateWith_two_snd _ _ _ _ _,
      ?_, ?_, ?_, ?_⟩
    · rw [updateWith_two_other _ _ _ _ _ (by decide) (by decide), e1]; rfl
    · rw [updateWith_two_other _ _ _ _ _ (by decide) (by decide), e2]; rfl
    · rw [updateWith_two_other _ _ _ _ _ (by decide) (by decide), e3]; rfl
    · intro k h1 h2 h3 h4 h5
      rw [updateWith_two_other _ _ _ _ _ h4 h5]
      exact e4 k h1 h2 h3
  · intro soup tgt p hp
    obtain ⟨tok, htok, rfl⟩ := navigatePostPayload_ok_shape soup tgt p hp
    obtain ⟨v1, v2, v3, rfl⟩ := parseHiddenInputsP_ok_shape soup tok htok
    obtain ⟨e1, e2, e3, e4⟩ := threeTokenDict_lookup v1 v2 v3
    refine ⟨Dict.insert_same _ _ _, ?_⟩
    intro k h1 h2 h3 h4
    rw [Dict.insert_ne _ _ _ h4]
    exact e4 k h1 h2 h3

theorem payload_construction_witness :
    (performInitialSearchPayload w6soup "ab") "ctl00$MainContent$txtLName" = some "ab" ∧
    ((performInitialSearchPayload w6soup "ab") "extra").isSome = true ∧
    w6payload55 "ctl00$MainContent$txtAIS" = some "55" ∧
    w6payload55 "extra" = none :=
  ⟨(payload_construction_amended.1 w6soup "ab").1,
   (payload_construction_amended.1 w6soup "ab").2.2 extraHiddenInput (by decide) rfl
     "extra" rfl (by decide),
   (payload_construction_amended.2.2.1 w6soup "55" w6payload55 rfl).1,
   (payload_construction_amended.2.2.1 w6soup "55" w6payload55 rfl).2.2.2.2.2 "extra"
     (by decide) (by decide) (by decide) (by decide) (by decide)⟩

/-! ### Claim C4 -/

/-- C4 counterexample: on a results page whose detail link has an unparsable
href but which is also missing the hidden tokens, `_navigate_to_details_page`
raises the `ValueError` of `parse_hidden_inputs` before reaching the href
split, so `process_single_ais` returns an `Error: ...` record, not the claimed
`No_Result_Found` record. -/
theorem no_result_claim_refuted : ¬ claimNoResultFound := by
  intro h
  have heq := h w7ok w4badResults (fun _ => .error w2err) "77" ⟨w7dict, rfl⟩
    (Or.inr ⟨⟨some "javascript:doPostBack"⟩, rfl, rfl⟩)
  have hval : processSingleAis "77" (.ok w7ok) (fun _ => .ok w4badResults)
      (fun _ => .error w2err) = [errorRecord "77" valueErrorMissingInput] := rfl
  rw [hval] at heq
  have hhead : errorRecord "77" valueErrorMissingInput = notFoundRecord "77" :=
    (List.cons.inj heq).1
  have hstatus := congrFun hhead "Status"
  exact absurd hstatus (by decide)

/-- C4 amended: the `No_Result_Found` outcome is guaranteed when the results
page has no detail link, or when it has a link with an unparsable href and its
three hidden tokens are present (so that `parse_hidden_inputs`, which runs
before the href split, succeeds); a missing-token page with an unparsable link
yields an `Error: ...` record instead.  The record always carries the
requested identifier and is never empty. -/
theorem no_result_found_amended :
    ∀ (initial results : Soup) (netDetails : Dict → Except PyErr Soup) (ais : String)
      (tok : Dict),
      parseHiddenInputsP initial = .ok tok →
      (results.detailLink = none ∨
        ((∃ tok2, parseHiddenInputsP results = .ok tok2) ∧
          ∃ l, results.detailLink = some l ∧ hrefEventTarget l = none)) →
      processSingleAis ais (.ok initial) (fun _ => .ok results) netDetails =
          [notFoundRecord ais] ∧
        (notFoundRecord ais) "AIS #" = some ais ∧
        (notFoundRecord ais) "Status" = some "No_Result_Found" := by
  intro initial results netD ais tok htok hcond
  have hnav : navigateToDetailsPage results netD = .ok none := by
    rcases hcond with hnone | ⟨⟨tok2, htok2⟩, l, hlink, htgt⟩
    · unfold navigateToDetailsPage
      rw [hnone]
    · unfold navigateToDetailsPage
      rw [hlink]
      dsimp only
      rw [htok2, except_bind_ok, htgt]
  have hpost : postAisSearch initial ais (fun _ => .ok results) = .ok results := by
    unfold postAisSearch
    rw [htok, except_bind_ok]
  have hbody : processSingleAisBody ais (.ok initial) (fun _ => .ok results) netD
      = .ok [notFoundRecord ais] := by
    unfold processSingleAisBody
    rw [except_bind_ok, hpost, except_bind_ok, hnav, except_bind_ok]
  refine ⟨?_, rfl, rfl⟩
  unfold processSingleAis
  rw [hbody]

theorem no_result_found_witness :
    (processSingleAis "88" (.ok w7ok) (fun _ => .ok w7ok) (fun _ => .error w2err)
        = [notFoundRecord "88"] ∧
      (notFoundRecord "88") "AIS #" = some "88" ∧
      (notFoundRecord "88") "Status" = some "No_Result_Found") ∧
    processSingleAis "99" (.ok w7ok) (fun _ => .ok w4splitFail) (fun _ => .error w2err)
        = [notFoundRecord "99"] :=
  ⟨no_result_found_amended w7ok w7ok (fun _ => .error w2err) "88" w7dict rfl (Or.inl rfl),
   (no_result_found_amended w7ok w4splitFail (fun _ => .error w2err) "99" w7dict rfl
     (Or.inr ⟨⟨w7dict, rfl⟩, ⟨some "nohquote"⟩, rfl, rfl⟩)).1⟩

/-! ### Claim C8 -/

theorem runFold_mem (results : List (String × Finset String × Nat))
    (acc : Finset String) (x : String) :
    (x ∈ results.foldl (fun a r => if r.2.1 = ∅ then a else a ∪ r.2.1) acc) ↔
      x ∈ acc ∨ ∃ r ∈ results, x ∈ r.2.1 := by
  induction results generalizing acc with
  | nil => simp
  | cons r rs ih =>
    rw [List.foldl_cons]
    by_cases hre : r.2.1 = ∅
    · rw [if_pos hre, ih]
      constructor
      · rintro (h | h)
        · exact Or.inl h
        · exact Or.inr (by
            obtain ⟨q, hq, hxq⟩ := h
            exact ⟨q, List.mem_cons_of_mem _ hq, hxq⟩)
      · rintro (h | ⟨q, hq, hxq⟩)
        · exact Or.inl h
        · rcases List.mem_cons.mp hq with rfl | hq'
          · rw [hre] at hxq
            exact absurd hxq (Finset.not_mem_empty x)
          · exact Or.inr ⟨q, hq', hxq⟩
    · rw [if_neg hre, ih]
      constructor
      · rintro (h | ⟨q, hq, hxq⟩)
        · rcases Finset.mem_union.mp h with h' | h'
          · exact Or.inl h'
          · exact Or.inr ⟨r, List.mem_cons_self r rs, h'⟩
        · exact Or.inr ⟨q, List.mem_cons_of_mem _ hq, hxq⟩
      · rintro (h | ⟨q, hq, hxq⟩)
        · exact Or.inl (Finset.mem_union.mpr (Or.inl h))
        · rcases List.mem_cons.mp hq with rfl | hq'
          · exact Or.inl (Finset.mem_union.mpr (Or.inr hxq))
          · exact Or.inr ⟨q, hq', hxq⟩

theorem runConcurrentCollection_mem (results : List (String × Finset String × Nat))
    (x : String) :
    x ∈ runConcurrentCollection results ↔ ∃ r ∈ results, x ∈ r.2.1 := by
  unfold runConcurrentCollection
  rw [runFold_mem]
  simp

/-- C8: the saved checkpoint content is exactly the deduplicated union of every
term's identifier set — independent of the completion order in which results
arrive — written as one identifier per line in ascending order with no header
and no repetition, only all-digit identifiers appearing when every term result
holds only all-digit identifiers, and it is a function of the complete list of
term results (phase 1 writes it only after all terms have finished). -/
theorem checkpoint_file_is_sorted_union :
    ∀ results : List (String × Finset String × Nat),
      (∀ x, x ∈ runConcurrentCollection results ↔ ∃ r ∈ results, x ∈ r.2.1) ∧
      (∀ results2, results.Perm results2 →
        runConcurrentCollection results = runConcurrentCollection results2) ∧
      (saveLines (runConcurrentCollection results)).Sorted (· < ·) ∧
      (saveLines (runConcurrentCollection results)).Nodup ∧
      (∀ x, x ∈ saveLines (runConcurrentCollection results) ↔
        x ∈ runConcurrentCollection results) ∧
      ((∀ r ∈ results, ∀ x ∈ r.2.1, isDigitString x = true) →
        ∀ x ∈ saveLines (runConcurrentCollection results), isDigitString x = true) ∧
      saveResultsToFile (runConcurrentCollection results) =
        String.join ((saveLines (runConcurrentCollection results)).map (· ++ "\n")) := by
  intro results
  refine ⟨runConcurrentCollection_mem results, ?_, ?_, ?_, ?_, ?_, ?_⟩
  · intro results2 hperm
    ext x
    rw [runConcurrentCollection_mem, runConcurrentCollection_mem]
    constructor
    · rintro ⟨r, hr, hxr⟩
      exact ⟨r, hperm.subset hr, hxr⟩
    · rintro ⟨r, hr, hxr⟩
      exact ⟨r, hperm.symm.subset hr, hxr⟩
  · exact Finset.sort_sorted_lt _
  · exact Finset.sort_nodup _ _
  · intro x
    exact Finset.mem_sort _
  · intro hdig x hx
    have hxu : x ∈ runConcurrentCollection results := (Finset.mem_sort _).mp hx
    obtain ⟨r, hr, hxr⟩ := (runConcurrentCollection_mem results x).mp hxu
    exact hdig r hr x hxr
  · unfold saveResultsToFile saveLines String.join
    rw [List.foldl_map]
    congr 1
    funext a b
    rw [String.append_assoc]

theorem checkpoint_file_witness :
    runConcurrentCollection w8results = runConcurrentCollection w8swapped ∧
    (∀ x ∈ saveLines (runConcurrentCollection w8results), isDigitString x = true) ∧
    ("1" ∈ runConcurrentCollection w8results ↔ ∃ r ∈ w8results, "1" ∈ r.2.1) ∧
    runConcurrentCollection w8results = {"2", "1"} :=
  ⟨(checkpoint_file_is_sorted_union w8results).2.1 w8swapped (by decide),
   (checkpoint_file_is_sorted_union w8results).2.2.2.2.2.1 (by decide),
   (checkpoint_file_is_sorted_union w8results).1 "1",
   by decide⟩

/-! ### Claim C5 -/

theorem append_ne_of_longer {a b : String} (hlen : b.length < a.length) (s : String) :
    a ++ s ≠ b := by
  intro h
  have hl := congrArg String.length h
  rw [String.length_append] at hl
  omega

theorem sentencePairs_keys (headers : List String) :
    ∀ (cells : List String) (i : Nat) (pairs : List (String × String)),
      sentencePairs headers cells i = .ok pairs → ∀ p ∈ pairs, p.1 ∈ headers := by
  intro cells
  induction cells with
  | nil =>
    intro i pairs h p hp
    rw [show sentencePairs headers [] i = .ok [] from rfl] at h
    obtain rfl := (Except.ok.inj h).symm
    exact absurd hp (List.not_mem_nil p)
  | cons c cs ih =>
    intro i pairs h p hp
    unfold sentencePairs at h
    cases hh : headers[i]? with
    | none => rw [hh] at h; exact absurd h (by simp)
    | some hd =>
      rw [hh] at h
      dsimp only at h
      cases hr : sentencePairs headers cs (i + 1) with
      | error e => rw [hr, except_bind_err] at h; exact absurd h (by simp)
      | ok rest =>
        rw [hr, except_bind_ok] at h
        obtain rfl := (Except.ok.inj h).symm
        rcases List.mem_cons.mp hp with rfl | hp'
        · exact List.mem_iff_getElem?.mpr ⟨i, hh⟩
        · exact ih (i + 1) rest hr p hp'

theorem parseSentenceRows_key_none (summaryInfo : Dict) (headers : List String)
    (k : String) (hsum : summaryInfo k = none) (hhead : ∀ h ∈ headers, h ≠ k) :
    ∀ (rows : List (List String)) (sents : List Dict),
      parseSentenceRows summaryInfo headers rows = .ok sents →
      ∀ d ∈ sents, d k = none := by
  intro rows
  induction rows with
  | nil =>
    intro sents h d hd
    obtain rfl := (Except.ok.inj h).symm
    exact absurd hd (List.not_mem_nil d)
  | cons cells rest ih =>
    intro sents h d hd
    unfold parseSentenceRows at h
    cases hpr : sentencePairs headers cells 0 with
    | error e => rw [hpr, except_bind_err] at h; exact absurd h (by simp)
    | ok pairs =>
      rw [hpr, except_bind_ok] at h
      cases hrest : parseSentenceRows summaryInfo headers rest with
      | error e => rw [hrest, except_bind_err] at h; exact absurd h (by simp)
      | ok sents' =>
        rw [hrest, except_bind_ok] at h
        obtain rfl := (Except.ok.inj h).symm
        rcases List.mem_cons.mp hd with rfl | hd'
        · have hpairs : Dict.ofPairs pairs k = none :=
            Dict.ofPairs_notMem pairs (fun p hp =>
              hhead p.1 (sentencePairs_keys headers cells 0 pairs hpr p hp))
          rw [Dict.override_of_none _ _ hpairs]
          exact hsum
        · exact ih sents' hrest d hd'

theorem parseOneIncarceration_key_none {soup : Soup} {k : String}
    (h1 : ∀ s, "Incarceration " ++ s ≠ k) (h2 : ∀ s, "Sentence " ++ s ≠ k) :
    ∀ (i : Nat) (summaryRows : List (List String)) (ds : List Dict),
      parseOneIncarceration soup i summaryRows = .ok ds → ∀ d ∈ ds, d k = none := by
  intro i summaryRows ds h d hd
  unfold parseOneIncarceration at h
  split at h
  · obtain rfl := (Except.ok.inj h).symm
    exact absurd hd (List.not_mem_nil d)
  · cases hn : findNestedTable soup.nestedTables i with
    | none =>
      rw [hn] at h
      obtain rfl := (Except.ok.inj h).symm
      exact absurd hd (List.not_mem_nil d)
    | some nrows =>
      rw [hn] at h
      cases nrows with
      | nil => exact absurd h (by simp)
      | cons firstRow sentRows =>
        refine parseSentenceRows_key_none _ _ k ?_ ?_ sentRows ds h d hd
        · refine Dict.ofPairs_notMem _ (fun p hp => ?_)
          obtain ⟨q, _, rfl⟩ := List.mem_map.mp hp
          exact h1 q.1
        · intro hh hmem
          obtain ⟨th, _, rfl⟩ := List.mem_map.mp hmem
          exact h2 th

theorem parseIncHistAux_key_none {soup : Soup} {k : String}
    (h1 : ∀ s, "Incarceration " ++ s ≠ k) (h2 : ∀ s, "Sentence " ++ s ≠ k) :
    ∀ (ts : List (List (List String))) (i : Nat) (ds : List Dict),
      parseIncHistAux soup ts i = .ok ds → ∀ d ∈ ds, d k = none := by
  intro ts
  induction ts with
  | nil =>
    intro i ds h d hd
    obtain rfl := (Except.ok.inj h).symm
    exact absurd hd (List.not_mem_nil d)
  | cons t ts' ih =>
    intro i ds h d hd
    unfold parseIncHistAux at h
    cases hone : parseOneIncarceration soup i t with
    | error e => rw [hone, except_bind_err] at h; exact absurd h (by simp)
    | ok ds1 =>
      rw [hone, except_bind_ok] at h
      cases hrest : parseIncHistAux soup ts' (i + 1) with
      | error e => rw [hrest, except_bind_err] at h; exact absurd h (by simp)
      | ok ds2 =>
        rw [hrest, except_bind_ok] at h
        obtain rfl := (Except.ok.inj h).symm
        rcases List.mem_append.mp hd with hd' | hd'
        · exact parseOneIncarceration_key_none h1 h2 i t ds1 hone d hd'
        · exact ih (i + 1) ds2 hrest d hd'

theorem parseIncarcerationHistory_ais_none (soup : Soup) (ds : List Dict)
    (h : parseIncarcerationHistory soup = .ok ds) : ∀ d ∈ ds, d "AIS #" = none :=
  parseIncHistAux_key_none
    (fun s => append_ne_of_longer (by decide) s)
    (fun s => append_ne_of_longer (by decide) s)
    soup.sentenceSummaryTables 0 ds h

theorem rowSpanStep_lookup_ne (d : Dict) (key : String) (row? : Option (Option String))
    {x : String} (h : x ≠ key) : (rowSpanStep d key row?) x = d x := by
  unfold rowSpanStep
  match row? with
  | some (some t) => exact Dict.insert_ne _ _ _ h
  | some none => rfl
  | none => rfl

theorem aisRowStep_lookup (d : Dict) (fallbackAis : String) (row? : Option (Option String)) :
    (aisRowStep d fallbackAis row?) "AIS #" =
      match row? with
      | some (some t) => some t
      | _ => some fallbackAis := by
  unfold aisRowStep
  match row? with
  | some (some t) => exact Dict.insert_same _ _ _
  | some none => exact Dict.insert_same _ _ _
  | none => exact Dict.insert_same _ _ _

theorem parseInmateSummary_ais_isSome (soup : Soup) (ais : String) :
    ((parseInmateSummary soup ais) "AIS #").isSome = true := by
  unfold parseInmateSummary
  cases soup.summaryView with
  | none => dsimp only; rw [Dict.insert_same]; rfl
  | some rows =>
    dsimp only
    rw [rowSpanStep_lookup_ne _ _ _ (by decide), aisRowStep_lookup]
    match rows[1]? with
    | some (some t) => rfl
    | some none => rfl
    | none => rfl

theorem parseInmateSummary_ais_fallback (soup : Soup) (ais : String)
    (h : identifierFallsBack soup = true) :
    (parseInmateSummary soup ais) "AIS #" = some ais := by
  unfold parseInmateSummary
  unfold identifierFallsBack at h
  cases hs : soup.summaryView with
  | none => exact Dict.insert_same _ _ _
  | some rows =>
    rw [hs] at h
    dsimp only at h
    dsimp only
    rw [rowSpanStep_lookup_ne _ _ _ (by decide), aisRowStep_lookup]
    match hr : rows[1]? with
    | some (some t) => rw [hr] at h; exact absurd h (by simp)
    | some none => rfl
    | none => rfl

theorem textSectionStep_lookup_ne (divs : List (String × List String)) (d : Dict)
    (item : String) {x : String} (h : x ≠ String.mk (replaceCommaSpace item.data)) :
    (textSectionStep divs d item) x = d x := by
  unfold textSectionStep
  cases findSectionSpans divs item with
  | none => exact Dict.insert_ne _ _ _ h
  | some items =>
    cases items with
    | nil => exact Dict.insert_ne _ _ _ h
    | cons first rest =>
      dsimp only
      split
      · exact Dict.insert_ne _ _ _ h
      · exact Dict.insert_ne _ _ _ h

theorem parseTextSections_ais_none (soup : Soup) :
    (parseTextSections soup) "AIS #" = none := by
  unfold parseTextSections sectionsToParse
  rw [List.foldl_cons, List.foldl_cons, List.foldl_nil]
  rw [textSectionStep_lookup_ne _ _ _ (by decide), textSectionStep_lookup_ne _ _ _ (by decide)]
  rfl

theorem baseInmateData_ais_isSome (soup : Soup) (ais : String) :
    ((baseInmateData soup ais) "AIS #").isSome = true := by
  unfold baseInmateData
  refine Dict.override_isSome _ _ (Dict.override_isSome _ _
    (Dict.override_isSome_right _ _ ?_))
  exact parseInmateSummary_ais_isSome soup ais

theorem baseInmateData_ais_fallback (soup : Soup) (ais : String)
    (hdemo : parseDemographics soup "AIS #" = none)
    (hfall : identifierFallsBack soup = true) :
    (baseInmateData soup ais) "AIS #" = some ais := by
  unfold baseInmateData
  rw [Dict.override_of_none _ _ (parseTextSections_ais_none soup),
      Dict.override_of_none _ _ hdemo,
      Dict.override_of_some _ _ (parseInmateSummary_ais_fallback soup ais hfall)]

/-- C5 counterexample: the demographics parser strips colons from keys, so a
demographics row labelled `AIS #:` writes the `AIS #` key after the summary
fallback has run, and the record's value is `999`, not the requested `123`. -/
theorem ais_fallback_claim_refuted : ¬ claimAisFieldFallback := by
  intro h
  have hmem : baseInmateData w5shadow "123" ∈ [baseInmateData w5shadow "123"] :=
    List.mem_singleton.mpr rfl
  have hval := (h w5shadow "123" [baseInmateData w5shadow "123"] rfl
    (baseInmateData w5shadow "123") hmem).2 rfl
  have hshadow : (baseInmateData w5shadow "123") "AIS #" = some "999" := rfl
  rw [hshadow] at hval
  exact absurd (Option.some.inj hval) (by decide)

/-- C5 amended: every record of `parse_final_details_page` carries the `AIS #`
field; its value is the requested identifier whenever the summary view, the
identifier row, or its span is missing — provided the demographics table
contributes no `AIS #` key of its own (such a key, colon-stripped, overwrites
the summary value in the merged base record). -/
theorem ais_field_fallback_amended :
    ∀ (soup : Soup) (ais : String) (l : List Dict),
      parseFinalDetailsPage soup ais = .ok l →
      ∀ d ∈ l, (d "AIS #").isSome = true ∧
        (parseDemographics soup "AIS #" = none → identifierFallsBack soup = true →
          d "AIS #" = some ais) := by
  intro soup ais l hl d hd
  unfold parseFinalDetailsPage at hl
  cases hh : parseIncarcerationHistory soup with
  | error e => rw [hh, except_bind_err] at hl; exact absurd hl (by simp)
  | ok sents =>
    rw [hh, except_bind_ok] at hl
    have hnone := parseIncarcerationHistory_ais_none soup sents hh
    cases sents with
    | nil =>
      obtain rfl := (Except.ok.inj hl).symm
      rcases List.mem_singleton.mp hd with rfl
      exact ⟨baseInmateData_ais_isSome soup ais, fun hdemo hfall =>
        baseInmateData_ais_fallback soup ais hdemo hfall⟩
    | cons s0 srest =>
      obtain rfl := (Except.ok.inj hl).symm
      obtain ⟨s, hs, rfl⟩ := List.mem_map.mp hd
      have hsnone : s "AIS #" = none := hnone s hs
      rw [Dict.override_of_none _ _ hsnone]
      exact ⟨baseInmateData_ais_isSome soup ais, fun hdemo hfall =>
        baseInmateData_ais_fallback soup ais hdemo hfall⟩

theorem ais_field_fallback_witness :
    ((baseInmateData w5fall "42") "AIS #").isSome = true ∧
    (baseInmateData w5fall "42") "AIS #" = some "42" :=
  have h := ais_field_fallback_amended w5fall "42" [baseInmateData w5fall "42"] rfl
    (baseInmateData w5fall "42") (List.mem_singleton.mpr rfl)
  ⟨h.1, h.2 rfl rfl⟩

/-! ### Claim C3 -/

/-- C3 counterexample: a summary table with fewer than two rows is skipped by
`_parse_incarceration_history` before its nested table is even looked up, so
`w3cex` yields the single base record where the claim predicts two sentence
records. -/
theorem record_count_claim_refuted : ¬ claimPerSentenceRowCount := by
  intro h
  have h1 := h w3cex "1" [baseInmateData w3cex "1"] rfl
  have h2 : (if claimCount w3cex = 0 then 1 else claimCount w3cex) = 2 := rfl
  rw [h2] at h1
  exact absurd h1 (by decide)

theorem sentencePairs_ok_of_le (headers : List String) :
    ∀ (cells : List String) (i : Nat), i + cells.length ≤ headers.length →
      ∃ pairs, sentencePairs headers cells i = .ok pairs := by
  intro cells
  induction cells with
  | nil => intro i _; exact ⟨[], rfl⟩
  | cons c cs ih =>
    intro i hle
    rw [List.length_cons] at hle
    have hi : i < headers.length := by omega
    have hh : headers[i]? = some headers[i] := List.getElem?_eq_getElem hi
    obtain ⟨rest, hrest⟩ := ih (i + 1) (by omega)
    refine ⟨(headers[i], c) :: rest, ?_⟩
    unfold sentencePairs
    rw [hh]
    dsimp only
    rw [hrest, except_bind_ok]

theorem parseSentenceRows_ok_length (summaryInfo : Dict) (headers : List String) :
    ∀ rows : List (List String), (∀ r ∈ rows, r.length ≤ headers.length) →
      ∃ sents, parseSentenceRows summaryInfo headers rows = .ok sents ∧
        sents.length = rows.length := by
  intro rows
  induction rows with
  | nil => intro _; exact ⟨[], rfl, rfl⟩
  | cons cells rest ih =>
    intro hr
    obtain ⟨pairs, hpairs⟩ := sentencePairs_ok_of_le headers cells 0
      (by have := hr cells (List.mem_cons_self _ _); omega)
    obtain ⟨sents', hs, hlen⟩ := ih (fun r hr' => hr r (List.mem_cons_of_mem _ hr'))
    refine ⟨summaryInfo.override (Dict.ofPairs pairs) :: sents', ?_, by simp [hlen]⟩
    unfold parseSentenceRows
    rw [hpairs, except_bind_ok, hs, except_bind_ok]

theorem findNestedTable_wf {tables : List (Nat × List (List String))}
    (hwf : nestedWellFormed tables = true) {i : Nat} {nrows : List (List String)}
    (hfind : findNestedTable tables i = some nrows) :
    nrows.isEmpty = false ∧ ∀ r ∈ nrows.tail, r.length ≤ nrows.headI.length := by
  unfold findNestedTable at hfind
  cases hf : tables.find? (fun t => t.1 == i) with
  | none => rw [hf] at hfind; exact absurd hfind (by simp)
  | some p =>
    rw [hf] at hfind
    have hp : p ∈ tables := List.mem_of_find?_eq_some hf
    have hall := (List.all_eq_true.mp hwf) p hp
    obtain rfl : p.2 = nrows := by simpa using hfind
    simp only [Bool.and_eq_true, Bool.not_eq_true', List.all_eq_true] at hall
    exact ⟨hall.1, fun r hr => by simpa using hall.2 r hr⟩

theorem parseOneIncarceration_ok_length (soup : Soup)
    (hwf : nestedWellFormed soup.nestedTables = true) (i : Nat)
    (t : List (List String)) :
    ∃ ds, parseOneIncarceration soup i t = .ok ds ∧
      ds.length = (if t.length < 2 then 0
        else match findNestedTable soup.nestedTables i with
          | none => 0
          | some nrows => nrows.tail.length) := by
  unfold parseOneIncarceration
  by_cases hlt : t.length < 2
  · exact ⟨[], by rw [if_pos hlt], by rw [if_pos hlt]; rfl⟩
  · rw [if_neg hlt]
    cases hn : findNestedTable soup.nestedTables i with
    | none => exact ⟨[], rfl, by rw [if_neg hlt]; rfl⟩
    | some nrows =>
      obtain ⟨hne, hbound⟩ := findNestedTable_wf hwf hn
      cases nrows with
      | nil => exact absurd hne (by simp)
      | cons firstRow sentRows =>
        obtain ⟨sents, hsents, hslen⟩ := parseSentenceRows_ok_length
          (Dict.ofPairs (((t.getD 0 []).zip (t.getD 1 [])).map
            (fun p => ("Incarceration " ++ p.1, p.2))))
          (firstRow.map (fun th => "Sentence " ++ th)) sentRows
          (fun r hr => by
            rw [List.length_map]
            exact hbound r hr)
        refine ⟨sents, ?_, ?_⟩
        · exact hsents
        · rw [hslen, if_neg hlt]
          rfl

theorem parseIncHistAux_ok_length (soup : Soup)
    (hwf : nestedWellFormed soup.nestedTables = true) :
    ∀ (ts : List (List (List String))) (i : Nat),
      ∃ ds, parseIncHistAux soup ts i = .ok ds ∧
        ds.length = matchedSentenceRowCount soup ts i := by
  intro ts
  induction ts with
  | nil => intro i; exact ⟨[], rfl, rfl⟩
  | cons t ts' ih =>
    intro i
    obtain ⟨ds1, h1, hl1⟩ := parseOneIncarceration_ok_length soup hwf i t
    obtain ⟨ds2, h2, hl2⟩ := ih (i + 1)
    refine ⟨ds1 ++ ds2, ?_, ?_⟩
    · unfold parseIncHistAux
      rw [h1, except_bind_ok, h2, except_bind_ok]
    · rw [List.length_append, hl1, hl2]
      rfl

/-- C3 amended: provided each index-matched nested table is well-formed (a
header row, no wider sentence rows), `parse_final_details_page` returns one
record per sentence row of each nested table whose id index matches the
position of a summary table **having at least two rows** (a one-row summary
table is skipped together with its nested table), each record being the base
record merged with the sentence record; with zero sentence records overall it
returns exactly the base record alone. -/
theorem final_details_records_amended :
    ∀ (soup : Soup) (ais : String),
      nestedWellFormed soup.nestedTables = true →
      ∃ sents, parseIncarcerationHistory soup = .ok sents ∧
        sents.length = matchedSentenceRowCount soup soup.sentenceSummaryTables 0 ∧
        parseFinalDetailsPage soup ais =
          .ok (if sents.isEmpty then [baseInmateData soup ais]
            else sents.map (fun s => (baseInmateData soup ais).override s)) ∧
        (parseFinalDetailsPage soup ais).map List.length =
          .ok (if matchedSentenceRowCount soup soup.sentenceSummaryTables 0 = 0 then 1
            else matchedSentenceRowCount soup soup.sentenceSummaryTables 0) := by
  intro soup ais hwf
  obtain ⟨sents, hs, hlen⟩ := parseIncHistAux_ok_length soup hwf soup.sentenceSummaryTables 0
  have hhist : parseIncarcerationHistory soup = .ok sents := hs
  have hfin : parseFinalDetailsPage soup ais =
      .ok (if sents.isEmpty then [baseInmateData soup ais]
        else sents.map (fun s => (baseInmateData soup ais).override s)) := by
    unfold parseFinalDetailsPage
    rw [hhist, except_bind_ok]
    cases sents with
    | nil => rfl
    | cons a as => rfl
  refine ⟨sents, hhist, hlen, hfin, ?_⟩
  rw [hfin, except_map_ok]
  cases sents with
  | nil =>
    have h0 : matchedSentenceRowCount soup soup.sentenceSummaryTables 0 = 0 := by
      rw [← hlen]
      rfl
    rw [h0]
    rfl
  | cons a as =>
    have h1 : matchedSentenceRowCount soup soup.sentenceSummaryTables 0 = as.length + 1 := by
      rw [← hlen]
      rfl
    rw [h1]
    simp

theorem final_details_three_records_witness :
    matchedSentenceRowCount w3good w3good.sentenceSummaryTables 0 = 3 ∧
    (parseFinalDetailsPage w3good "5").map List.length = .ok 3 := by
  refine ⟨by decide, ?_⟩
  obtain ⟨sents, -, -, -, hmap⟩ := final_details_records_amended w3good "5" (by decide)
  rw [hmap]
  rfl

end AlabamaScraper
